import Mathlib

/-!
Verification of the kernel-evaluation core of the Neural-Splines repository
(`common/falkon_kernels.py` and its callers), as a shallow embedding in Lean.

Point sets are matrices over the reals with one point per row; the torch
tensor operations used by the source (row norms, dense matrix products,
elementwise in-place transforms) are embedded as the corresponding real
functions.  Floating-point numbers are modelled by the field of reals, so the
source's "up to floating tolerance" equations become exact equalities of the
embedded expressions.
-/

noncomputable section

namespace NeuralSplines

open Real Filter Matrix

/-- Dot product of two coordinate vectors: the torch expression
`(x * xp).sum(-1)` applied to a pair of rows. -/
def dotv {d : ℕ} (x y : Fin d → ℝ) : ℝ := ∑ i, x i * y i

/-- Row norm `torch.norm(x, dim=-1)` of a single row. -/
def nrm {d : ℕ} (x : Fin d → ℝ) : ℝ := Real.sqrt (dotv x x)

/-- `torch.clamp(t, -1.0, 1.0)`. -/
def clamp11 (t : ℝ) : ℝ := min 1 (max (-1) t)

/-- The clamped cosine similarity `torch.clamp(x_dot_xp / norm_x_xp, -1.0, 1.0)`
shared by all three module-level kernel functions. -/
def cosSim {d : ℕ} (x y : Fin d → ℝ) : ℝ := clamp11 (dotv x y / (nrm x * nrm y))

/-- One entry of `k_arccos(x, xp)` from `common/falkon_kernels.py`:
the arc-cosine kernel `‖x‖‖y‖ (sin θ + (π − θ) cos θ) / π` with
`θ = arccos(clamp(x·y/(‖x‖‖y‖), -1, 1))`. -/
def k_arccos_entry {d : ℕ} (x y : Fin d → ℝ) : ℝ :=
  nrm x * nrm y *
    (Real.sin (Real.arccos (cosSim x y)) +
      (Real.pi - Real.arccos (cosSim x y)) * cosSim x y) / Real.pi

/-- `k_arccos(x, xp)`: the dense arc-cosine kernel matrix. -/
def k_arccos {m n d : ℕ} (X1 : Matrix (Fin m) (Fin d) ℝ) (X2 : Matrix (Fin n) (Fin d) ℝ) :
    Matrix (Fin m) (Fin n) ℝ :=
  Matrix.of fun i j => k_arccos_entry (X1 i) (X2 j)

/-- One entry of `k_ntk(x, xp, variance)` from `common/falkon_kernels.py`:
`‖x‖‖y‖ (sin θ + (1 + variance)(π − θ) cos θ) / π`. -/
def k_ntk_entry {d : ℕ} (x y : Fin d → ℝ) (variance : ℝ) : ℝ :=
  nrm x * nrm y *
    (Real.sin (Real.arccos (cosSim x y)) +
      (1 + variance) * (Real.pi - Real.arccos (cosSim x y)) * cosSim x y) / Real.pi

/-- `k_ntk(x, xp, variance)`: the dense neural-tangent kernel matrix. -/
def k_ntk {m n d : ℕ} (X1 : Matrix (Fin m) (Fin d) ℝ) (X2 : Matrix (Fin n) (Fin d) ℝ)
    (variance : ℝ) : Matrix (Fin m) (Fin n) ℝ :=
  Matrix.of fun i j => k_ntk_entry (X1 i) (X2 j) variance

/-- One entry of `k_spherical_laplace(x, xp, gamma, alpha)`:
`‖x‖‖y‖ exp(α (1 − clamp(cos))^γ)`, the exponent being a real power. -/
def k_spherical_laplace_entry {d : ℕ} (x y : Fin d → ℝ) (gamma alpha : ℝ) : ℝ :=
  nrm x * nrm y * Real.exp (alpha * (1 - cosSim x y) ^ gamma)

/-- `k_spherical_laplace(x, xp, gamma, alpha)`: the dense spherical-Laplace
kernel matrix. -/
def k_spherical_laplace {m n d : ℕ} (X1 : Matrix (Fin m) (Fin d) ℝ)
    (X2 : Matrix (Fin n) (Fin d) ℝ) (gamma alpha : ℝ) : Matrix (Fin m) (Fin n) ℝ :=
  Matrix.of fun i j => k_spherical_laplace_entry (X1 i) (X2 j) gamma alpha

/-! ### The staged (prepare / apply / finalize) evaluation path -/

/-- `ArcCosineKernel._prepare`: per-row norms of both operands. -/
def ArcCosineKernel_prepare {m n d : ℕ} (X1 : Matrix (Fin m) (Fin d) ℝ)
    (X2 : Matrix (Fin n) (Fin d) ℝ) : (Fin m → ℝ) × (Fin n → ℝ) :=
  (fun i => nrm (X1 i), fun j => nrm (X2 j))

/-- `ArcCosineKernel._apply`: `out.addmm_(X1, X2)`, i.e. the matrix product of
the operands added in place to the caller's buffer (the second operand arrives
already transposed from the staged driver). -/
def ArcCosineKernel_apply {m n d : ℕ} (X1 : Matrix (Fin m) (Fin d) ℝ)
    (X2T : Matrix (Fin d) (Fin n) ℝ) (out : Matrix (Fin m) (Fin n) ℝ) :
    Matrix (Fin m) (Fin n) ℝ :=
  out + X1 * X2T

/-- `ArcCosineKernel._finalize`: the in-place chain
`div n1, div n2, clamp, θ := acos, C := sin θ, B := π − θ, mul B, add C,
mul n1, mul n2, div π` applied entrywise. -/
def ArcCosineKernel_finalize {m n : ℕ} (A : Matrix (Fin m) (Fin n) ℝ)
    (n1 : Fin m → ℝ) (n2 : Fin n → ℝ) : Matrix (Fin m) (Fin n) ℝ :=
  Matrix.of fun i j =>
    (clamp11 (A i j / n1 i / n2 j) * (Real.pi - Real.arccos (clamp11 (A i j / n1 i / n2 j))) +
        Real.sin (Real.arccos (clamp11 (A i j / n1 i / n2 j)))) *
      n1 i * n2 j / Real.pi

/-- The staged dense pipeline for the arc-cosine kernel: prepare the norms,
apply into a zero-initialized block, finalize in place. -/
def ArcCosineKernel_staged {m n d : ℕ} (X1 : Matrix (Fin m) (Fin d) ℝ)
    (X2 : Matrix (Fin n) (Fin d) ℝ) : Matrix (Fin m) (Fin n) ℝ :=
  ArcCosineKernel_finalize (ArcCosineKernel_apply X1 X2.transpose 0)
    (ArcCosineKernel_prepare X1 X2).1 (ArcCosineKernel_prepare X1 X2).2

/-- `ArcCosineKernel.direct_kernel`, which returns `k_arccos(X1, X2)`. -/
def ArcCosineKernel_direct_kernel {m n d : ℕ} (X1 : Matrix (Fin m) (Fin d) ℝ)
    (X2 : Matrix (Fin n) (Fin d) ℝ) : Matrix (Fin m) (Fin n) ℝ :=
  k_arccos X1 X2

/-- `LaplaceKernelSphere._apply`: identical to the arc-cosine `_apply`,
`out.addmm_(X1, X2)`. -/
def LaplaceKernelSphere_apply {m n d : ℕ} (X1 : Matrix (Fin m) (Fin d) ℝ)
    (X2T : Matrix (Fin d) (Fin n) ℝ) (out : Matrix (Fin m) (Fin n) ℝ) :
    Matrix (Fin m) (Fin n) ℝ :=
  out + X1 * X2T

/-- `LaplaceKernelSphere._finalize`: the in-place chain
`div n1, div n2, clamp, mul -1, add 1, pow γ, mul α, exp, mul n1, mul n2`. -/
def LaplaceKernelSphere_finalize {m n : ℕ} (A : Matrix (Fin m) (Fin n) ℝ)
    (gamma alpha : ℝ) (n1 : Fin m → ℝ) (n2 : Fin n → ℝ) : Matrix (Fin m) (Fin n) ℝ :=
  Matrix.of fun i j =>
    Real.exp (alpha * (1 - clamp11 (A i j / n1 i / n2 j)) ^ gamma) * n1 i * n2 j

/-- The staged dense pipeline for the spherical-Laplace kernel. -/
def LaplaceKernelSphere_staged {m n d : ℕ} (X1 : Matrix (Fin m) (Fin d) ℝ)
    (X2 : Matrix (Fin n) (Fin d) ℝ) (gamma alpha : ℝ) : Matrix (Fin m) (Fin n) ℝ :=
  LaplaceKernelSphere_finalize (LaplaceKernelSphere_apply X1 X2.transpose 0) gamma alpha
    (fun i => nrm (X1 i)) (fun j => nrm (X2 j))

/-- `LaplaceKernelSphere.direct_kernel`, which returns
`k_spherical_laplace(X1, X2, gamma, alpha)`. -/
def LaplaceKernelSphere_direct_kernel {m n d : ℕ} (X1 : Matrix (Fin m) (Fin d) ℝ)
    (X2 : Matrix (Fin n) (Fin d) ℝ) (gamma alpha : ℝ) : Matrix (Fin m) (Fin n) ℝ :=
  k_spherical_laplace X1 X2 gamma alpha

/-! ### The neural-tangent kernel's specialized and symbolic paths -/

/-- C math library `atan2(y, x)`, used by the source's embedded CUDA kernel. -/
def atan2 (y x : ℝ) : ℝ :=
  if 0 < x then Real.arctan (y / x)
  else if x < 0 then
    (if 0 ≤ y then Real.arctan (y / x) + Real.pi else Real.arctan (y / x) - Real.pi)
  else if 0 < y then Real.pi / 2
  else if y < 0 then -(Real.pi / 2)
  else 0

/-- One output entry of the embedded CUDA `stable_kernel` in
`NeuralTangentKernel._apply`: the angle is computed as
`2·atan2(‖‖y‖x − ‖x‖y‖, ‖‖y‖x + ‖x‖y‖)` and the kernel value as
`‖x‖‖y‖ (sin θ + (1 + variance)(π − θ) cos θ) / π`. -/
def stable_kernel_entry {d : ℕ} (x y : Fin d → ℝ) (variance : ℝ) : ℝ :=
  nrm x * nrm y *
    (Real.sin (2 * atan2 (nrm fun k => nrm y * x k - nrm x * y k)
        (nrm fun k => nrm y * x k + nrm x * y k)) +
      (1 + variance) *
        (Real.pi - 2 * atan2 (nrm fun k => nrm y * x k - nrm x * y k)
          (nrm fun k => nrm y * x k + nrm x * y k)) *
        Real.cos (2 * atan2 (nrm fun k => nrm y * x k - nrm x * y k)
          (nrm fun k => nrm y * x k + nrm x * y k))) / Real.pi

/-- `NeuralTangentKernel._apply`: the CUDA kernel writes the finished kernel
value for every block entry directly into `out`, overwriting it (the second
operand arrives transposed and is transposed back before the launch). -/
def NeuralTangentKernel_apply {m n d : ℕ} (variance : ℝ) (X1 : Matrix (Fin m) (Fin d) ℝ)
    (X2T : Matrix (Fin d) (Fin n) ℝ) (out : Matrix (Fin m) (Fin n) ℝ) :
    Matrix (Fin m) (Fin n) ℝ :=
  Matrix.of fun i j => stable_kernel_entry (X1 i) (fun k => X2T k j) variance

/-- `NeuralTangentKernel._finalize`: returns the block unchanged. -/
def NeuralTangentKernel_finalize {m n : ℕ} (A : Matrix (Fin m) (Fin n) ℝ) :
    Matrix (Fin m) (Fin n) ℝ := A

/-- The staged pipeline for the neural-tangent kernel (`_prepare` returns no
auxiliary data). -/
def NeuralTangentKernel_staged {m n d : ℕ} (variance : ℝ) (X1 : Matrix (Fin m) (Fin d) ℝ)
    (X2 : Matrix (Fin n) (Fin d) ℝ) : Matrix (Fin m) (Fin n) ℝ :=
  NeuralTangentKernel_finalize (NeuralTangentKernel_apply variance X1 X2.transpose 0)

/-- `NeuralTangentKernel.direct_kernel` as written in the source: it returns
`k_arccos(X1, X2)` and ignores the stored `variance`. -/
def NeuralTangentKernel_direct_kernel {m n d : ℕ} (variance : ℝ)
    (X1 : Matrix (Fin m) (Fin d) ℝ) (X2 : Matrix (Fin n) (Fin d) ℝ) :
    Matrix (Fin m) (Fin n) ℝ :=
  k_arccos X1 X2

/-- KeOps `Normalize(X)`: a vector divided by its norm. -/
def normalize {d : ℕ} (x : Fin d → ℝ) : Fin d → ℝ := fun i => x i / nrm x

/-- One entry of the KeOps formula of `ArcCosineKernel._keops_mmv_impl`:
`(Norm2(X) Norm2(Y) / pi) (Sin θ + (pi − θ) cosθ)` with
`cosθ = (Normalize(X) | Normalize(Y))` (not clamped) and `θ = Acos(cosθ)`. -/
def ArcCosineKernel_keops_entry {d : ℕ} (x y : Fin d → ℝ) : ℝ :=
  nrm x * nrm y / Real.pi *
    (Real.sin (Real.arccos (dotv (normalize x) (normalize y))) +
      (Real.pi - Real.arccos (dotv (normalize x) (normalize y))) *
        dotv (normalize x) (normalize y))

/-- The kernel matrix realized by the arc-cosine KeOps path. -/
def ArcCosineKernel_keops {m n d : ℕ} (X1 : Matrix (Fin m) (Fin d) ℝ)
    (X2 : Matrix (Fin n) (Fin d) ℝ) : Matrix (Fin m) (Fin n) ℝ :=
  Matrix.of fun i j => ArcCosineKernel_keops_entry (X1 i) (X2 j)

/-- One entry of the KeOps formula of `NeuralTangentKernel._keops_mmv_impl`:
`θ = two Atan2(Norm2(Norm2(Y) X − Norm2(X) Y), Norm2(Norm2(Y) X + Norm2(X) Y))`
and value `(Norm2(X) Norm2(Y) (Sin θ + (one + variance)(pi − θ) Cos θ)) / pi`. -/
def NeuralTangentKernel_keops_entry {d : ℕ} (x y : Fin d → ℝ) (variance : ℝ) : ℝ :=
  nrm x * nrm y *
    (Real.sin (2 * atan2 (nrm fun k => nrm y * x k - nrm x * y k)
        (nrm fun k => nrm y * x k + nrm x * y k)) +
      (1 + variance) *
        (Real.pi - 2 * atan2 (nrm fun k => nrm y * x k - nrm x * y k)
          (nrm fun k => nrm y * x k + nrm x * y k)) *
        Real.cos (2 * atan2 (nrm fun k => nrm y * x k - nrm x * y k)
          (nrm fun k => nrm y * x k + nrm x * y k))) / Real.pi

/-- The kernel matrix realized by the neural-tangent KeOps path. -/
def NeuralTangentKernel_keops {m n d : ℕ} (variance : ℝ) (X1 : Matrix (Fin m) (Fin d) ℝ)
    (X2 : Matrix (Fin n) (Fin d) ℝ) : Matrix (Fin m) (Fin n) ℝ :=
  Matrix.of fun i j => NeuralTangentKernel_keops_entry (X1 i) (X2 j) variance

/-- One entry of the KeOps formula of `LaplaceKernelSphere._keops_mmv_impl`:
`Norm2(X) Norm2(Y) Exp(alpha Powf(one − Clamp11(Normalize(X) | Normalize(Y)), gamma))`. -/
def LaplaceKernelSphere_keops_entry {d : ℕ} (x y : Fin d → ℝ) (gamma alpha : ℝ) : ℝ :=
  nrm x * nrm y *
    Real.exp (alpha * (1 - clamp11 (dotv (normalize x) (normalize y))) ^ gamma)

/-- The kernel matrix realized by the spherical-Laplace KeOps path. -/
def LaplaceKernelSphere_keops {m n d : ℕ} (X1 : Matrix (Fin m) (Fin d) ℝ)
    (X2 : Matrix (Fin n) (Fin d) ℝ) (gamma alpha : ℝ) : Matrix (Fin m) (Fin n) ℝ :=
  Matrix.of fun i j => LaplaceKernelSphere_keops_entry (X1 i) (X2 j) gamma alpha

/-! ### Hyperparameter extraction and kernel construction -/

/-- The kinds of Python value a hyperparameter argument can take: a torch
tensor with a list of elements, a plain numeric scalar, or a value that is not
convertible to a float. -/
inductive PyVal where
  | tensor (elems : List ℝ)
  | num (v : ℝ)
  | nonNumeric
  deriving DecidableEq

/-- The Python exceptions raised by `extract_float`. -/
inductive PyErr where
  | valueError
  | typeError
  deriving DecidableEq

/-- `extract_float(d)`: `d.item()` succeeds exactly on one-element tensors and
raises `ValueError` otherwise; non-tensors go through `float(d)`, which raises
`TypeError` on non-numeric values. -/
def extract_float : PyVal → Except PyErr ℝ
  | PyVal.tensor [v] => Except.ok v
  | PyVal.tensor _ => Except.error PyErr.valueError
  | PyVal.num v => Except.ok v
  | PyVal.nonNumeric => Except.error PyErr.typeError

/-- Whether a Python value reduces to a single scalar. -/
def isScalarVal : PyVal → Bool
  | PyVal.tensor es => es.length == 1
  | PyVal.num _ => true
  | PyVal.nonNumeric => false

/-- The scalar hyperparameters stored by a constructed `LaplaceKernelSphere`. -/
structure LaplaceKernelSphereState where
  alpha : ℝ
  gamma : ℝ

/-- `LaplaceKernelSphere.__init__`: both hyperparameters pass through
`extract_float`, so a non-scalar argument raises at construction time. -/
def LaplaceKernelSphere_init (alpha gamma : PyVal) :
    Except PyErr LaplaceKernelSphereState :=
  (extract_float alpha).bind fun a =>
    (extract_float gamma).map fun g => ⟨a, g⟩

/-- The state stored by a constructed `NeuralTangentKernel`. -/
structure NeuralTangentKernelState where
  variance : PyVal

/-- `NeuralTangentKernel.__init__`: `self.variance = variance` with no
validation of any kind. -/
def NeuralTangentKernel_init (variance : PyVal) :
    Except PyErr NeuralTangentKernelState :=
  Except.ok ⟨variance⟩

/-! ### The dense direct solver -/

/-- The dense kernel matrix `kernel.direct_kernel(X1, X2)` built from an
entrywise kernel function. -/
def directKernelMat {m n d : ℕ} (k : (Fin d → ℝ) → (Fin d → ℝ) → ℝ)
    (X1 : Matrix (Fin m) (Fin d) ℝ) (X2 : Matrix (Fin n) (Fin d) ℝ) :
    Matrix (Fin m) (Fin n) ℝ :=
  Matrix.of fun i j => k (X1 i) (X2 j)

/-- The state of a `DirectKernelSolver`: the kernel, the penalty, and — once
`fit` has run — the stored training matrix `x_` and coefficients `alpha_`. -/
structure DirectKernelSolver (d : ℕ) where
  kernel : (Fin d → ℝ) → (Fin d → ℝ) → ℝ
  penalty : ℝ
  trained : Option ((n : ℕ) × (Matrix (Fin n) (Fin d) ℝ × (Fin n → ℝ)))

/-- `DirectKernelSolver.__init__(kernel, penalty)`: `alpha_` and `x_` start as
`None`. -/
def DirectKernelSolver.init {d : ℕ} (k : (Fin d → ℝ) → (Fin d → ℝ) → ℝ) (penalty : ℝ) :
    DirectKernelSolver d :=
  ⟨k, penalty, none⟩

/-- `DirectKernelSolver.fit(x, y)`: stores `x` and
`alpha_ = inverse(Kxx + penalty·I) @ y` with `Kxx = kernel.direct_kernel(x, x)`. -/
def DirectKernelSolver.fit {d n : ℕ} (s : DirectKernelSolver d)
    (X : Matrix (Fin n) (Fin d) ℝ) (y : Fin n → ℝ) : DirectKernelSolver d :=
  { s with
    trained := some ⟨n, X,
      (directKernelMat s.kernel X X + s.penalty • (1 : Matrix (Fin n) (Fin n) ℝ))⁻¹ *ᵥ y⟩ }

/-- `DirectKernelSolver.predict(x)`: `kernel.direct_kernel(x, x_) @ alpha_`;
with no stored training data there is no value to return. -/
def DirectKernelSolver.predict {d m : ℕ} (s : DirectKernelSolver d)
    (Xq : Matrix (Fin m) (Fin d) ℝ) : Option (Fin m → ℝ) :=
  s.trained.map fun t => directKernelMat s.kernel Xq t.2.1 *ᵥ t.2.2

/-! ### The decayed spherical-Laplace kernel -/

/-- Modelled from the spec: `LaplaceKernelSphereDecay` is imported by
`fit_n_spline_falkon.py` but its definition is not among the sources.  Per the
spec it multiplies the undecayed spherical-Laplace kernel value by a radial
Gaussian-type decay term in the Euclidean distance between the two points,
parameterized by the `sigma`/`decay` scalar (the command line describes it as
modulation by the Gaussian kernel with standard deviation `decay`), and it must
reduce to the undecayed kernel as the decay parameter grows without bound. -/
def k_spherical_laplace_decay_entry {d : ℕ} (x y : Fin d → ℝ)
    (gamma alpha sigma : ℝ) : ℝ :=
  k_spherical_laplace_entry x y gamma alpha *
    Real.exp (-(dotv (fun i => x i - y i) (fun i => x i - y i)) / (2 * sigma ^ 2))

/-- The dense kernel matrix of the decayed spherical-Laplace kernel
(modelled from the spec, as above). -/
def k_spherical_laplace_decay {m n d : ℕ} (X1 : Matrix (Fin m) (Fin d) ℝ)
    (X2 : Matrix (Fin n) (Fin d) ℝ) (gamma alpha sigma : ℝ) :
    Matrix (Fin m) (Fin n) ℝ :=
  Matrix.of fun i j => k_spherical_laplace_decay_entry (X1 i) (X2 j) gamma alpha sigma

/-! ### Basic helper lemmas -/

lemma dotv_self_nonneg {d : ℕ} (x : Fin d → ℝ) : 0 ≤ dotv x x :=
  Finset.sum_nonneg fun i _ => mul_self_nonneg (x i)

lemma nrm_nonneg {d : ℕ} (x : Fin d → ℝ) : 0 ≤ nrm x := Real.sqrt_nonneg _

lemma nrm_mul_self {d : ℕ} (x : Fin d → ℝ) : nrm x * nrm x = dotv x x :=
  Real.mul_self_sqrt (dotv_self_nonneg x)

lemma sq_dotv_le {d : ℕ} (x y : Fin d → ℝ) : dotv x y ^ 2 ≤ dotv x x * dotv y y := by
  have h := Finset.sum_mul_sq_le_sq_mul_sq Finset.univ x y
  simpa [dotv, sq] using h

lemma abs_dotv_le {d : ℕ} (x y : Fin d → ℝ) : |dotv x y| ≤ nrm x * nrm y := by
  have h1 : Real.sqrt (dotv x y ^ 2) ≤ Real.sqrt (dotv x x * dotv y y) :=
    Real.sqrt_le_sqrt (sq_dotv_le x y)
  rw [Real.sqrt_sq_eq_abs] at h1
  calc |dotv x y| ≤ Real.sqrt (dotv x x * dotv y y) := h1
    _ = nrm x * nrm y := by
        rw [Real.sqrt_mul (dotv_self_nonneg x)]; rfl

lemma neg_one_le_clamp11 (t : ℝ) : -1 ≤ clamp11 t :=
  le_min (by norm_num) (le_max_left _ _)

lemma clamp11_le_one (t : ℝ) : clamp11 t ≤ 1 := min_le_left _ _

lemma clamp11_of_mem {t : ℝ} (h1 : -1 ≤ t) (h2 : t ≤ 1) : clamp11 t = t := by
  unfold clamp11
  rw [max_eq_right h1, min_eq_right h2]

lemma neg_one_le_cosSim {d : ℕ} (x y : Fin d → ℝ) : -1 ≤ cosSim x y :=
  neg_one_le_clamp11 _

lemma cosSim_le_one {d : ℕ} (x y : Fin d → ℝ) : cosSim x y ≤ 1 :=
  clamp11_le_one _

lemma ratio_mem_of_pos {d : ℕ} {x y : Fin d → ℝ} (hx : 0 < nrm x) (hy : 0 < nrm y) :
    -1 ≤ dotv x y / (nrm x * nrm y) ∧ dotv x y / (nrm x * nrm y) ≤ 1 := by
  have hN : 0 < nrm x * nrm y := mul_pos hx hy
  have habs : |dotv x y / (nrm x * nrm y)| ≤ 1 := by
    rw [abs_div, abs_of_pos hN, div_le_one hN]
    exact abs_dotv_le x y
  exact abs_le.mp habs

lemma cosSim_eq_of_pos {d : ℕ} {x y : Fin d → ℝ} (hx : 0 < nrm x) (hy : 0 < nrm y) :
    cosSim x y = dotv x y / (nrm x * nrm y) :=
  clamp11_of_mem (ratio_mem_of_pos hx hy).1 (ratio_mem_of_pos hx hy).2

lemma dotv_normalize {d : ℕ} (x y : Fin d → ℝ) :
    dotv (normalize x) (normalize y) = dotv x y / (nrm x * nrm y) := by
  unfold dotv normalize
  rw [Finset.sum_div]
  exact Finset.sum_congr rfl fun i _ => div_mul_div_comm (x i) (nrm x) (y i) (nrm y)

lemma dotv_sub_comb {d : ℕ} (a b : ℝ) (x y : Fin d → ℝ) :
    dotv (fun k => a * x k - b * y k) (fun k => a * x k - b * y k) =
      a ^ 2 * dotv x x - 2 * (a * b) * dotv x y + b ^ 2 * dotv y y := by
  unfold dotv
  calc (∑ k, (a * x k - b * y k) * (a * x k - b * y k))
      = ∑ k, (a ^ 2 * (x k * x k) + b ^ 2 * (y k * y k) - 2 * (a * b) * (x k * y k)) :=
        Finset.sum_congr rfl fun k _ => by ring
    _ = a ^ 2 * dotv x x - 2 * (a * b) * dotv x y + b ^ 2 * dotv y y := by
        unfold dotv
        rw [Finset.sum_sub_distrib, Finset.sum_add_distrib, ← Finset.mul_sum, ← Finset.mul_sum,
          ← Finset.mul_sum]
        ring

lemma dotv_add_comb {d : ℕ} (a b : ℝ) (x y : Fin d → ℝ) :
    dotv (fun k => a * x k + b * y k) (fun k => a * x k + b * y k) =
      a ^ 2 * dotv x x + 2 * (a * b) * dotv x y + b ^ 2 * dotv y y := by
  unfold dotv
  calc (∑ k, (a * x k + b * y k) * (a * x k + b * y k))
      = ∑ k, (a ^ 2 * (x k * x k) + b ^ 2 * (y k * y k) + 2 * (a * b) * (x k * y k)) :=
        Finset.sum_congr rfl fun k _ => by ring
    _ = a ^ 2 * dotv x x + 2 * (a * b) * dotv x y + b ^ 2 * dotv y y := by
        unfold dotv
        rw [Finset.sum_add_distrib, Finset.sum_add_distrib, ← Finset.mul_sum, ← Finset.mul_sum,
          ← Finset.mul_sum]
        ring

/-- The half-angle identity behind the source's numerically stable angle
computation: for cosines in `(-1, 1]`,
`arccos c = 2 arctan (√(1 − c) / √(1 + c))`. -/
lemma two_arctan_sqrt_eq_arccos {c : ℝ} (h1 : -1 < c) (h2 : c ≤ 1) :
    2 * Real.arctan (Real.sqrt (1 - c) / Real.sqrt (1 + c)) = Real.arccos c := by
  have hπ := Real.pi_pos
  have hθ0 : 0 ≤ Real.arccos c := Real.arccos_nonneg c
  have hθπ : Real.arccos c ≤ Real.pi := Real.arccos_le_pi c
  have hθltπ : Real.arccos c < Real.pi := by
    rcases lt_or_eq_of_le hθπ with h | h
    · exact h
    · exfalso
      have := Real.arccos_eq_pi.mp h
      linarith
  have hcos : Real.cos (Real.arccos c) = c := Real.cos_arccos (le_of_lt h1) h2
  have hsinhalf : Real.sin (Real.arccos c / 2) = Real.sqrt ((1 - c) / 2) := by
    rw [Real.sin_half_eq_sqrt hθ0 (by linarith), hcos]
  have hcoshalf : Real.cos (Real.arccos c / 2) = Real.sqrt ((1 + c) / 2) := by
    rw [Real.cos_half (by linarith) hθπ, hcos]
  have hratio : Real.sqrt (1 - c) / Real.sqrt (1 + c) = Real.tan (Real.arccos c / 2) := by
    rw [Real.tan_eq_sin_div_cos, hsinhalf, hcoshalf,
      Real.sqrt_div (by linarith : (0:ℝ) ≤ 1 - c) 2,
      Real.sqrt_div (by linarith : (0:ℝ) ≤ 1 + c) 2]
    have ha : Real.sqrt (1 + c) ≠ 0 := ne_of_gt (Real.sqrt_pos.mpr (by linarith))
    have hb : Real.sqrt 2 ≠ 0 := ne_of_gt (Real.sqrt_pos.mpr (by norm_num))
    field_simp
  rw [hratio, Real.arctan_tan (by linarith) (by linarith)]
  ring

/-- The numerically stable angle `2·atan2(‖‖y‖x − ‖x‖y‖, ‖‖y‖x + ‖x‖y‖)` used
by the CUDA and KeOps paths of the neural-tangent kernel equals the direct
`arccos` of the cosine ratio, for points with nonzero norms. -/
lemma stable_angle_eq {d : ℕ} {x y : Fin d → ℝ} (hx : 0 < nrm x) (hy : 0 < nrm y) :
    2 * atan2 (nrm fun k => nrm y * x k - nrm x * y k)
        (nrm fun k => nrm y * x k + nrm x * y k) =
      Real.arccos (dotv x y / (nrm x * nrm y)) := by
  have hN : 0 < nrm x * nrm y := mul_pos hx hy
  have hmem := ratio_mem_of_pos hx hy
  set c := dotv x y / (nrm x * nrm y) with hc
  have hD : dotv x y = c * (nrm x * nrm y) := by
    rw [hc, div_mul_cancel₀ _ (ne_of_gt hN)]
  have hsub : dotv (fun k => nrm y * x k - nrm x * y k)
      (fun k => nrm y * x k - nrm x * y k) = 2 * (nrm x * nrm y) ^ 2 * (1 - c) := by
    rw [dotv_sub_comb, ← nrm_mul_self x, ← nrm_mul_self y, hD]
    ring
  have hadd : dotv (fun k => nrm y * x k + nrm x * y k)
      (fun k => nrm y * x k + nrm x * y k) = 2 * (nrm x * nrm y) ^ 2 * (1 + c) := by
    rw [dotv_add_comb, ← nrm_mul_self x, ← nrm_mul_self y, hD]
    ring
  have hnrmsub : nrm (fun k => nrm y * x k - nrm x * y k)
      = Real.sqrt (2 * (nrm x * nrm y) ^ 2 * (1 - c)) := by
    show Real.sqrt (dotv _ _) = _
    rw [hsub]
  have hnrmadd : nrm (fun k => nrm y * x k + nrm x * y k)
      = Real.sqrt (2 * (nrm x * nrm y) ^ 2 * (1 + c)) := by
    show Real.sqrt (dotv _ _) = _
    rw [hadd]
  rw [hnrmsub, hnrmadd]
  rcases eq_or_lt_of_le hmem.1 with hneg | hgt
  · have h0 : (2 : ℝ) * (nrm x * nrm y) ^ 2 * (1 + c) = 0 := by
      rw [← hneg]; ring
    have h4 : (2 : ℝ) * (nrm x * nrm y) ^ 2 * (1 - c) = (2 * (nrm x * nrm y)) ^ 2 := by
      rw [← hneg]; ring
    rw [h0, Real.sqrt_zero, h4, Real.sqrt_sq (by positivity), ← hneg, Real.arccos_neg_one]
    unfold atan2
    rw [if_neg (lt_irrefl 0), if_neg (lt_irrefl 0), if_pos (by positivity)]
    ring
  · have h1c : (0 : ℝ) < 1 + c := by linarith
    have hpos2 : 0 < 2 * (nrm x * nrm y) ^ 2 * (1 + c) := by positivity
    have hargpos : 0 < Real.sqrt (2 * (nrm x * nrm y) ^ 2 * (1 + c)) :=
      Real.sqrt_pos.mpr hpos2
    have h1c' : (0 : ℝ) ≤ 1 - c := by linarith [hmem.2]
    unfold atan2
    rw [if_pos hargpos]
    have hratio : Real.sqrt (2 * (nrm x * nrm y) ^ 2 * (1 - c)) /
        Real.sqrt (2 * (nrm x * nrm y) ^ 2 * (1 + c)) =
        Real.sqrt (1 - c) / Real.sqrt (1 + c) := by
      rw [← Real.sqrt_div (by positivity) (2 * (nrm x * nrm y) ^ 2 * (1 + c)),
        mul_div_mul_left _ _ (by positivity : (2 : ℝ) * (nrm x * nrm y) ^ 2 ≠ 0),
        Real.sqrt_div h1c' (1 + c)]
    rw [hratio]
    exact two_arctan_sqrt_eq_arccos hgt hmem.2

/-- The CUDA `stable_kernel` computes exactly the `k_ntk` formula. -/
lemma stable_kernel_entry_eq_k_ntk {d : ℕ} (x y : Fin d → ℝ) (v : ℝ) :
    stable_kernel_entry x y v = k_ntk_entry x y v := by
  rcases eq_or_lt_of_le (nrm_nonneg x) with hx | hx
  · unfold stable_kernel_entry k_ntk_entry
    rw [← hx]
    ring
  rcases eq_or_lt_of_le (nrm_nonneg y) with hy | hy
  · unfold stable_kernel_entry k_ntk_entry
    rw [← hy]
    ring
  unfold stable_kernel_entry k_ntk_entry
  rw [stable_angle_eq hx hy, cosSim_eq_of_pos hx hy,
    Real.cos_arccos (ratio_mem_of_pos hx hy).1 (ratio_mem_of_pos hx hy).2]

/-- The KeOps neural-tangent formula coincides with the CUDA one. -/
lemma ntk_keops_entry_eq_stable {d : ℕ} (x y : Fin d → ℝ) (v : ℝ) :
    NeuralTangentKernel_keops_entry x y v = stable_kernel_entry x y v := rfl

lemma apply_zero_entry {m n d : ℕ} (X1 : Matrix (Fin m) (Fin d) ℝ)
    (X2 : Matrix (Fin n) (Fin d) ℝ) (i : Fin m) (j : Fin n) :
    ArcCosineKernel_apply X1 X2.transpose 0 i j = dotv (X1 i) (X2 j) := by
  simp [ArcCosineKernel_apply, Matrix.add_apply, Matrix.zero_apply, Matrix.mul_apply,
    Matrix.transpose_apply, dotv]

/-- The staged pipeline of the arc-cosine kernel produces exactly the entries
of its reference `direct_kernel`. -/
lemma ArcCosineKernel_staged_eq_direct {m n d : ℕ} (X1 : Matrix (Fin m) (Fin d) ℝ)
    (X2 : Matrix (Fin n) (Fin d) ℝ) :
    ArcCosineKernel_staged X1 X2 = ArcCosineKernel_direct_kernel X1 X2 := by
  ext i j
  simp only [ArcCosineKernel_staged, ArcCosineKernel_finalize, ArcCosineKernel_prepare,
    ArcCosineKernel_direct_kernel, k_arccos, k_arccos_entry, cosSim, Matrix.of_apply]
  rw [apply_zero_entry]
  simp only [div_div]
  ring

/-- The staged pipeline of the spherical-Laplace kernel produces exactly the
entries of its reference `direct_kernel`. -/
lemma LaplaceKernelSphere_staged_eq_direct {m n d : ℕ} (X1 : Matrix (Fin m) (Fin d) ℝ)
    (X2 : Matrix (Fin n) (Fin d) ℝ) (gamma alpha : ℝ) :
    LaplaceKernelSphere_staged X1 X2 gamma alpha =
      LaplaceKernelSphere_direct_kernel X1 X2 gamma alpha := by
  ext i j
  have hA : LaplaceKernelSphere_apply X1 X2.transpose 0 i j = dotv (X1 i) (X2 j) := by
    simp [LaplaceKernelSphere_apply, Matrix.add_apply, Matrix.zero_apply, Matrix.mul_apply,
      Matrix.transpose_apply, dotv]
  simp only [LaplaceKernelSphere_staged, LaplaceKernelSphere_finalize,
    LaplaceKernelSphere_direct_kernel, k_spherical_laplace, k_spherical_laplace_entry,
    cosSim, Matrix.of_apply]
  rw [hA]
  simp only [div_div]
  ring

/-- The arc-cosine KeOps formula produces exactly the entries of
`direct_kernel`, clamping included (for nonzero norms Cauchy-Schwarz makes the
clamp the identity; for a zero norm both sides vanish). -/
lemma ArcCosineKernel_keops_eq_direct {m n d : ℕ} (X1 : Matrix (Fin m) (Fin d) ℝ)
    (X2 : Matrix (Fin n) (Fin d) ℝ) :
    ArcCosineKernel_keops X1 X2 = ArcCosineKernel_direct_kernel X1 X2 := by
  ext i j
  simp only [ArcCosineKernel_keops, ArcCosineKernel_keops_entry,
    ArcCosineKernel_direct_kernel, k_arccos, k_arccos_entry, Matrix.of_apply]
  rw [dotv_normalize]
  rcases eq_or_lt_of_le (nrm_nonneg (X1 i)) with hx | hx
  · rw [← hx]
    ring
  rcases eq_or_lt_of_le (nrm_nonneg (X2 j)) with hy | hy
  · rw [← hy]
    ring
  rw [cosSim_eq_of_pos hx hy]
  ring

/-- The spherical-Laplace KeOps formula produces exactly the entries of
`direct_kernel` (both clamp the normalized dot product). -/
lemma LaplaceKernelSphere_keops_eq_direct {m n d : ℕ} (X1 : Matrix (Fin m) (Fin d) ℝ)
    (X2 : Matrix (Fin n) (Fin d) ℝ) (gamma alpha : ℝ) :
    LaplaceKernelSphere_keops X1 X2 gamma alpha =
      LaplaceKernelSphere_direct_kernel X1 X2 gamma alpha := by
  ext i j
  simp only [LaplaceKernelSphere_keops, LaplaceKernelSphere_keops_entry,
    LaplaceKernelSphere_direct_kernel, k_spherical_laplace, k_spherical_laplace_entry,
    cosSim, Matrix.of_apply]
  rw [dotv_normalize]

/-- The staged neural-tangent path and its KeOps path agree (both use the
stable two-atan2 angle), for every variance. -/
lemma NeuralTangentKernel_staged_eq_keops {m n d : ℕ} (variance : ℝ)
    (X1 : Matrix (Fin m) (Fin d) ℝ) (X2 : Matrix (Fin n) (Fin d) ℝ) :
    NeuralTangentKernel_staged variance X1 X2 =
      NeuralTangentKernel_keops variance X1 X2 := rfl

/-- Entrywise description of the staged neural-tangent path via `k_ntk`. -/
lemma NeuralTangentKernel_staged_entry {m n d : ℕ} (variance : ℝ)
    (X1 : Matrix (Fin m) (Fin d) ℝ) (X2 : Matrix (Fin n) (Fin d) ℝ) :
    NeuralTangentKernel_staged variance X1 X2 = k_ntk X1 X2 variance := by
  ext i j
  simp only [NeuralTangentKernel_staged, NeuralTangentKernel_finalize,
    NeuralTangentKernel_apply, k_ntk, Matrix.of_apply]
  exact stable_kernel_entry_eq_k_ntk (X1 i) (X2 j) variance

lemma k_ntk_entry_zero_variance {d : ℕ} (x y : Fin d → ℝ) :
    k_ntk_entry x y 0 = k_arccos_entry x y := by
  unfold k_ntk_entry k_arccos_entry
  ring

/-! ### Concrete evaluations used by witnesses and counterexamples -/

lemma nrm_one : nrm ![(1 : ℝ)] = 1 := by
  unfold nrm dotv
  simp

lemma cosSim_one_one : cosSim ![(1 : ℝ)] ![(1 : ℝ)] = 1 := by
  unfold cosSim clamp11
  rw [nrm_one]
  norm_num [dotv]

lemma k_arccos_entry_one_one : k_arccos_entry ![(1 : ℝ)] ![(1 : ℝ)] = 1 := by
  unfold k_arccos_entry
  rw [cosSim_one_one, nrm_one, Real.arccos_one, Real.sin_zero]
  field_simp

lemma k_ntk_entry_one_one (v : ℝ) : k_ntk_entry ![(1 : ℝ)] ![(1 : ℝ)] v = 1 + v := by
  unfold k_ntk_entry
  rw [cosSim_one_one, nrm_one, Real.arccos_one, Real.sin_zero]
  field_simp

lemma nrm_e1 : nrm ![(1 : ℝ), 0, 0] = 1 := by
  unfold nrm dotv
  norm_num [Fin.sum_univ_three]

lemma nrm_e2 : nrm ![(0 : ℝ), 1, 0] = 1 := by
  unfold nrm dotv
  norm_num [Fin.sum_univ_three]

lemma cosSim_e1_e2 : cosSim ![(1 : ℝ), 0, 0] ![(0 : ℝ), 1, 0] = 0 := by
  unfold cosSim clamp11 dotv nrm
  norm_num [Fin.sum_univ_three]

/-! ### Claim theorems -/

/-- Claim C8: on `X1 = [[1,0,0]]`, `X2 = [[0,1,0]]` the arc-cosine
`direct_kernel` value is `1/π` and the spherical-Laplace value at
`alpha = -1`, `gamma = 0.5` is `exp (-1)`. -/
theorem hand_computed_kernel_values :
    k_arccos !![(1 : ℝ), 0, 0] !![(0 : ℝ), 1, 0] 0 0 = 1 / Real.pi ∧
    k_spherical_laplace !![(1 : ℝ), 0, 0] !![(0 : ℝ), 1, 0] (1 / 2) (-1) 0 0 =
      Real.exp (-1) := by
  constructor
  · show k_arccos_entry ![(1 : ℝ), 0, 0] ![(0 : ℝ), 1, 0] = 1 / Real.pi
    unfold k_arccos_entry
    rw [cosSim_e1_e2, nrm_e1, nrm_e2, Real.arccos_zero, Real.sin_pi_div_two]
    ring
  · show k_spherical_laplace_entry ![(1 : ℝ), 0, 0] ![(0 : ℝ), 1, 0] (1 / 2) (-1) =
      Real.exp (-1)
    unfold k_spherical_laplace_entry
    rw [cosSim_e1_e2, nrm_e1, nrm_e2]
    norm_num [Real.one_rpow]

/-- Claim C6: `predict` on a freshly constructed solver (before any `fit`)
produces no value, for every kernel, penalty and query set. -/
theorem predict_before_fit_fails {d m : ℕ} (k : (Fin d → ℝ) → (Fin d → ℝ) → ℝ)
    (penalty : ℝ) (Xq : Matrix (Fin m) (Fin d) ℝ) :
    (DirectKernelSolver.init k penalty).predict Xq = none := rfl

/-- Claim C10: for both kernels that implement the dense staged `_apply`, the
buffer afterwards holds its prior contents plus the bilinear block of pairwise
dot products, hence exactly the raw block when the caller zero-initialized it. -/
theorem apply_writes_bilinear_block {m n d : ℕ} (X1 : Matrix (Fin m) (Fin d) ℝ)
    (X2 : Matrix (Fin n) (Fin d) ℝ) (out : Matrix (Fin m) (Fin n) ℝ)
    (i : Fin m) (j : Fin n) :
    ArcCosineKernel_apply X1 X2.transpose out i j = out i j + dotv (X1 i) (X2 j) ∧
    LaplaceKernelSphere_apply X1 X2.transpose out i j = out i j + dotv (X1 i) (X2 j) ∧
    ArcCosineKernel_apply X1 X2.transpose 0 i j = dotv (X1 i) (X2 j) ∧
    LaplaceKernelSphere_apply X1 X2.transpose 0 i j = dotv (X1 i) (X2 j) := by
  refine ⟨?_, ?_, ?_, ?_⟩ <;>
    simp [ArcCosineKernel_apply, LaplaceKernelSphere_apply, Matrix.add_apply,
      Matrix.zero_apply, Matrix.mul_apply, Matrix.transpose_apply, dotv]

lemma isScalar_of_ok {p : PyVal} {r : ℝ} (h : extract_float p = Except.ok r) :
    isScalarVal p = true := by
  cases p with
  | tensor es =>
    cases es with
    | nil => simp [extract_float] at h
    | cons v t =>
      cases t with
      | nil => simp [isScalarVal]
      | cons w t2 => simp [extract_float] at h
  | num v => simp [isScalarVal]
  | nonNumeric => simp [extract_float] at h

lemma isScalar_false_of_error {p : PyVal} {e : PyErr} (h : extract_float p = Except.error e) :
    isScalarVal p = false := by
  cases p with
  | tensor es =>
    cases es with
    | nil => simp [isScalarVal]
    | cons v t =>
      cases t with
      | nil => simp [extract_float] at h
      | cons w t2 => simp [isScalarVal]
  | num v => simp [extract_float] at h
  | nonNumeric => simp [isScalarVal]

lemma extract_float_error_of_not_scalar {p : PyVal} (h : isScalarVal p = false) :
    ∃ e, extract_float p = Except.error e := by
  cases p with
  | tensor es =>
    cases es with
    | nil => exact ⟨PyErr.valueError, rfl⟩
    | cons v t =>
      cases t with
      | nil => simp [isScalarVal] at h
      | cons w t2 => exact ⟨PyErr.valueError, rfl⟩
  | num v => simp [isScalarVal] at h
  | nonNumeric => exact ⟨PyErr.typeError, rfl⟩

/-- Counterexample for claim C3: `NeuralTangentKernel` accepts a two-element
tensor as its `variance` hyperparameter without raising. -/
theorem ntk_init_accepts_nonscalar :
    NeuralTangentKernel_init (PyVal.tensor [1, 2]) =
      Except.ok ⟨PyVal.tensor [1, 2]⟩ := rfl

/-- Claim C3 (amended): `LaplaceKernelSphere` raises at construction exactly
when `alpha` or `gamma` does not reduce to a single scalar, while
`NeuralTangentKernel` stores any `variance` value without validation. -/
theorem hyperparameter_validation_amended :
    (∀ a g : PyVal,
      (∃ e, LaplaceKernelSphere_init a g = Except.error e) ↔
        isScalarVal a = false ∨ isScalarVal g = false) ∧
    (∀ v : PyVal, NeuralTangentKernel_init v = Except.ok ⟨v⟩) := by
  constructor
  · intro a g
    constructor
    · rintro ⟨e, he⟩
      rcases h1 : extract_float a with e1 | r1
      · exact Or.inl (isScalar_false_of_error h1)
      rcases h2 : extract_float g with e2 | r2
      · exact Or.inr (isScalar_false_of_error h2)
      exfalso
      rw [LaplaceKernelSphere_init, h1, h2] at he
      simp [Except.bind, Except.map] at he
    · rintro (h | h)
      · obtain ⟨e, he⟩ := extract_float_error_of_not_scalar h
        refine ⟨e, ?_⟩
        rw [LaplaceKernelSphere_init, he]
        rfl
      · obtain ⟨e, he⟩ := extract_float_error_of_not_scalar h
        rcases h1 : extract_float a with e1 | r1
        · exact ⟨e1, by rw [LaplaceKernelSphere_init, h1]; rfl⟩
        · exact ⟨e, by rw [LaplaceKernelSphere_init, h1, he]; rfl⟩
  · intro v
    rfl

/-- Claim C7: with `variance = 0` the neural-tangent kernel coincides with the
arc-cosine kernel on every evaluation path — the direct path (trivially, since
`direct_kernel` is shared), the staged CUDA path, and the symbolic KeOps
path (via the stable-angle identity). -/
theorem ntk_variance_zero_eq_arccos {m n d : ℕ} (X1 : Matrix (Fin m) (Fin d) ℝ)
    (X2 : Matrix (Fin n) (Fin d) ℝ) :
    NeuralTangentKernel_direct_kernel 0 X1 X2 = ArcCosineKernel_direct_kernel X1 X2 ∧
    NeuralTangentKernel_staged 0 X1 X2 = ArcCosineKernel_staged X1 X2 ∧
    NeuralTangentKernel_keops 0 X1 X2 = ArcCosineKernel_keops X1 X2 := by
  have hstaged : NeuralTangentKernel_staged 0 X1 X2 = ArcCosineKernel_staged X1 X2 := by
    rw [NeuralTangentKernel_staged_entry, ArcCosineKernel_staged_eq_direct]
    ext i j
    simp only [k_ntk, ArcCosineKernel_direct_kernel, k_arccos, Matrix.of_apply]
    exact k_ntk_entry_zero_variance (X1 i) (X2 j)
  refine ⟨rfl, hstaged, ?_⟩
  rw [← NeuralTangentKernel_staged_eq_keops, hstaged, ArcCosineKernel_staged_eq_direct,
    ← ArcCosineKernel_keops_eq_direct]

/-- Claim C1 (code-bug evaluation): `NeuralTangentKernel.direct_kernel` returns
`k_arccos`, ignoring `variance`; at `X1 = X2 = [[1]]` with `variance = 1` it
yields `1`, while the neural-tangent formula `k_ntk` claimed by the spec
yields `2`. -/
theorem ntk_direct_kernel_mismatch :
    NeuralTangentKernel_direct_kernel 1 !![(1 : ℝ)] !![(1 : ℝ)] 0 0 = 1 ∧
    k_ntk !![(1 : ℝ)] !![(1 : ℝ)] 1 0 0 = 2 := by
  constructor
  · show k_arccos_entry ![(1 : ℝ)] ![(1 : ℝ)] = 1
    exact k_arccos_entry_one_one
  · show k_ntk_entry ![(1 : ℝ)] ![(1 : ℝ)] 1 = 2
    rw [k_ntk_entry_one_one]
    norm_num

/-- Claim C2 (code-bug evaluation): the staged and symbolic paths match the
reference `direct_kernel` (and hence agree on matrix-vector products) for the
arc-cosine and spherical-Laplace kernels, and the two fast neural-tangent
paths agree with each other — but the neural-tangent staged path disagrees
with its own `direct_kernel` whenever `variance ≠ 0`: at `X1 = X2 = [[1]]`,
`variance = 1` the staged value is `2` while `direct_kernel` gives `1`. -/
theorem strategy_equivalence_status :
    (∀ (m n d : ℕ) (X1 : Matrix (Fin m) (Fin d) ℝ) (X2 : Matrix (Fin n) (Fin d) ℝ)
        (v : Fin n → ℝ),
      ArcCosineKernel_staged X1 X2 = ArcCosineKernel_direct_kernel X1 X2 ∧
      ArcCosineKernel_keops X1 X2 = ArcCosineKernel_direct_kernel X1 X2 ∧
      ArcCosineKernel_staged X1 X2 *ᵥ v = ArcCosineKernel_direct_kernel X1 X2 *ᵥ v) ∧
    (∀ (m n d : ℕ) (gamma alpha : ℝ) (X1 : Matrix (Fin m) (Fin d) ℝ)
        (X2 : Matrix (Fin n) (Fin d) ℝ) (v : Fin n → ℝ),
      LaplaceKernelSphere_staged X1 X2 gamma alpha =
          LaplaceKernelSphere_direct_kernel X1 X2 gamma alpha ∧
      LaplaceKernelSphere_keops X1 X2 gamma alpha =
          LaplaceKernelSphere_direct_kernel X1 X2 gamma alpha ∧
      LaplaceKernelSphere_staged X1 X2 gamma alpha *ᵥ v =
          LaplaceKernelSphere_direct_kernel X1 X2 gamma alpha *ᵥ v) ∧
    (∀ (m n d : ℕ) (variance : ℝ) (X1 : Matrix (Fin m) (Fin d) ℝ)
        (X2 : Matrix (Fin n) (Fin d) ℝ),
      NeuralTangentKernel_staged variance X1 X2 =
        NeuralTangentKernel_keops variance X1 X2) ∧
    (NeuralTangentKernel_staged 1 !![(1 : ℝ)] !![(1 : ℝ)] 0 0 = 2 ∧
      NeuralTangentKernel_direct_kernel 1 !![(1 : ℝ)] !![(1 : ℝ)] 0 0 = 1) := by
  refine ⟨?_, ?_, ?_, ?_, ?_⟩
  · intro m n d X1 X2 v
    refine ⟨ArcCosineKernel_staged_eq_direct X1 X2, ArcCosineKernel_keops_eq_direct X1 X2, ?_⟩
    rw [ArcCosineKernel_staged_eq_direct]
  · intro m n d gamma alpha X1 X2 v
    refine ⟨LaplaceKernelSphere_staged_eq_direct X1 X2 gamma alpha,
      LaplaceKernelSphere_keops_eq_direct X1 X2 gamma alpha, ?_⟩
    rw [LaplaceKernelSphere_staged_eq_direct]
  · intro m n d variance X1 X2
    exact NeuralTangentKernel_staged_eq_keops variance X1 X2
  · rw [NeuralTangentKernel_staged_entry]
    show k_ntk_entry ![(1 : ℝ)] ![(1 : ℝ)] 1 = 2
    rw [k_ntk_entry_one_one]
    norm_num
  · show k_arccos_entry ![(1 : ℝ)] ![(1 : ℝ)] = 1
    exact k_arccos_entry_one_one

/-- Claim C4: the clamp keeps every cosine-similarity value inside `[-1, 1]`
(including raw values at or past `1`), so the inverse cosine is applied inside
its domain; for collinear vectors scaled by a positive factor the clamped
cosine is exactly `1`, the `arccos(1) = 0` path is taken, and the arc-cosine
kernel value is the finite product of the two norms. -/
theorem cosine_clamp_domain_guard {d : ℕ} (x : Fin d → ℝ) (a : ℝ)
    (ha : 0 < a) (hx : nrm x ≠ 0) :
    (∀ t : ℝ, -1 ≤ clamp11 t ∧ clamp11 t ≤ 1) ∧
    (∀ y : Fin d → ℝ, -1 ≤ cosSim x y ∧ cosSim x y ≤ 1) ∧
    cosSim x (fun i => a * x i) = 1 ∧
    Real.arccos (cosSim x (fun i => a * x i)) = 0 ∧
    k_arccos_entry x (fun i => a * x i) = nrm x * nrm (fun i => a * x i) := by
  have hnx : 0 < nrm x := lt_of_le_of_ne (nrm_nonneg x) (Ne.symm hx)
  have hn : nrm (fun i => a * x i) = a * nrm x := by
    have hdd : dotv (fun i => a * x i) (fun i => a * x i) = a ^ 2 * dotv x x := by
      unfold dotv
      rw [Finset.mul_sum]
      exact Finset.sum_congr rfl fun i _ => by ring
    show Real.sqrt (dotv _ _) = _
    rw [hdd, Real.sqrt_mul (sq_nonneg a), Real.sqrt_sq ha.le]
    rfl
  have hd : dotv x (fun i => a * x i) = a * dotv x x := by
    unfold dotv
    rw [Finset.mul_sum]
    exact Finset.sum_congr rfl fun i _ => by ring
  have hcs : cosSim x (fun i => a * x i) = 1 := by
    unfold cosSim
    rw [hd, hn, ← nrm_mul_self x]
    have hval : a * (nrm x * nrm x) / (nrm x * (a * nrm x)) = 1 := by
      field_simp
      ring
    rw [hval]
    exact clamp11_of_mem (by norm_num) le_rfl
  refine ⟨fun t => ⟨neg_one_le_clamp11 t, clamp11_le_one t⟩,
    fun y => ⟨neg_one_le_cosSim x y, cosSim_le_one x y⟩, hcs, ?_, ?_⟩
  · rw [hcs, Real.arccos_one]
  · unfold k_arccos_entry
    rw [hcs, Real.arccos_one, Real.sin_zero]
    field_simp

/-- Witness for claim C4 at `x = [1]`, `a = 2`. -/
theorem cosine_clamp_domain_guard_witness :
    (0 : ℝ) < 2 ∧ nrm ![(1 : ℝ)] ≠ 0 ∧
    cosSim ![(1 : ℝ)] (fun i => 2 * ![(1 : ℝ)] i) = 1 ∧
    Real.arccos (cosSim ![(1 : ℝ)] (fun i => 2 * ![(1 : ℝ)] i)) = 0 := by
  have hx : nrm ![(1 : ℝ)] ≠ 0 := by
    rw [nrm_one]
    norm_num
  have h := cosine_clamp_domain_guard ![(1 : ℝ)] 2 (by norm_num) hx
  exact ⟨by norm_num, hx, h.2.2.1, h.2.2.2.1⟩

/-- Claim C5: after `fit(X, y)` the solver stores `X` together with
`alpha_ = (K + penalty·I)⁻¹ y`; when the regularized matrix is invertible this
`alpha_` solves `(K + penalty·I)·alpha_ = y`, and `predict(Xq)` returns
`direct_kernel(Xq, X) @ alpha_`. -/
theorem direct_solver_fit_predict {d n m : ℕ} (k : (Fin d → ℝ) → (Fin d → ℝ) → ℝ)
    (p : ℝ) (X : Matrix (Fin n) (Fin d) ℝ) (y : Fin n → ℝ)
    (Xq : Matrix (Fin m) (Fin d) ℝ)
    (h : IsUnit (directKernelMat k X X + p • (1 : Matrix (Fin n) (Fin n) ℝ)).det) :
    ((DirectKernelSolver.init k p).fit X y).trained =
      some ⟨n, X, (directKernelMat k X X + p • (1 : Matrix (Fin n) (Fin n) ℝ))⁻¹ *ᵥ y⟩ ∧
    (directKernelMat k X X + p • (1 : Matrix (Fin n) (Fin n) ℝ)) *ᵥ
      ((directKernelMat k X X + p • (1 : Matrix (Fin n) (Fin n) ℝ))⁻¹ *ᵥ y) = y ∧
    ((DirectKernelSolver.init k p).fit X y).predict Xq =
      some (directKernelMat k Xq X *ᵥ
        ((directKernelMat k X X + p • (1 : Matrix (Fin n) (Fin n) ℝ))⁻¹ *ᵥ y)) := by
  refine ⟨rfl, ?_, rfl⟩
  rw [Matrix.mulVec_mulVec, Matrix.mul_nonsing_inv _ h, Matrix.one_mulVec]

/-- Witness for claim C5: the arc-cosine kernel on `X = [[1]]` with penalty 1
gives the regularized matrix `[[2]]`, which is invertible. -/
theorem direct_solver_fit_predict_witness :
    IsUnit (directKernelMat k_arccos_entry !![(1 : ℝ)] !![(1 : ℝ)] +
        (1 : ℝ) • (1 : Matrix (Fin 1) (Fin 1) ℝ)).det ∧
    (directKernelMat k_arccos_entry !![(1 : ℝ)] !![(1 : ℝ)] +
        (1 : ℝ) • (1 : Matrix (Fin 1) (Fin 1) ℝ)) *ᵥ
      ((directKernelMat k_arccos_entry !![(1 : ℝ)] !![(1 : ℝ)] +
        (1 : ℝ) • (1 : Matrix (Fin 1) (Fin 1) ℝ))⁻¹ *ᵥ ![1]) = ![1] := by
  have h00 : (directKernelMat k_arccos_entry !![(1 : ℝ)] !![(1 : ℝ)] +
      (1 : ℝ) • (1 : Matrix (Fin 1) (Fin 1) ℝ)) 0 0 = 2 := by
    rw [Matrix.add_apply, Matrix.smul_apply, Matrix.one_apply_eq]
    show k_arccos_entry ![(1 : ℝ)] ![(1 : ℝ)] + (1 : ℝ) • (1 : ℝ) = 2
    rw [k_arccos_entry_one_one, smul_eq_mul]
    norm_num
  have hunit : IsUnit (directKernelMat k_arccos_entry !![(1 : ℝ)] !![(1 : ℝ)] +
      (1 : ℝ) • (1 : Matrix (Fin 1) (Fin 1) ℝ)).det := by
    rw [Matrix.det_fin_one, h00]
    exact isUnit_iff_ne_zero.mpr two_ne_zero
  exact ⟨hunit,
    (direct_solver_fit_predict k_arccos_entry 1 !![(1 : ℝ)] ![1] !![(1 : ℝ)] hunit).2.1⟩

/-- Claim C9: for every pair of points and fixed `gamma`, `alpha`, the decayed
spherical-Laplace kernel converges to the undecayed one as the decay parameter
grows, and for every tolerance its values eventually stay within it. -/
theorem laplace_decay_limit {m n d : ℕ} (X1 : Matrix (Fin m) (Fin d) ℝ)
    (X2 : Matrix (Fin n) (Fin d) ℝ) (gamma alpha : ℝ) (i : Fin m) (j : Fin n) :
    Tendsto (fun sigma => k_spherical_laplace_decay X1 X2 gamma alpha sigma i j)
      atTop (nhds (k_spherical_laplace X1 X2 gamma alpha i j)) ∧
    ∀ ε : ℝ, 0 < ε → ∀ᶠ sigma in atTop,
      |k_spherical_laplace_decay X1 X2 gamma alpha sigma i j -
        k_spherical_laplace X1 X2 gamma alpha i j| < ε := by
  have h1 : Tendsto (fun sigma : ℝ => 2 * sigma ^ 2) atTop atTop :=
    (tendsto_pow_atTop (two_ne_zero)).const_mul_atTop two_pos
  have h2 : Tendsto (fun sigma : ℝ =>
      -(dotv (fun t => X1 i t - X2 j t) fun t => X1 i t - X2 j t) / (2 * sigma ^ 2))
      atTop (nhds 0) :=
    Tendsto.const_div_atTop h1 _
  have h3 := (Real.continuous_exp.tendsto 0).comp h2
  rw [Real.exp_zero] at h3
  have h4 := h3.const_mul (k_spherical_laplace_entry (X1 i) (X2 j) gamma alpha)
  rw [mul_one] at h4
  have hmain : Tendsto (fun sigma => k_spherical_laplace_decay X1 X2 gamma alpha sigma i j)
      atTop (nhds (k_spherical_laplace X1 X2 gamma alpha i j)) := by
    simpa [k_spherical_laplace_decay, k_spherical_laplace_decay_entry, k_spherical_laplace,
      Matrix.of_apply, Function.comp] using h4
  refine ⟨hmain, fun ε hε => ?_⟩
  have h5 := Metric.tendsto_nhds.mp hmain ε hε
  simpa [Real.dist_eq] using h5

/-- Witness for claim C9 at concrete one-dimensional inputs and `ε = 1`. -/
theorem laplace_decay_limit_witness :
    Tendsto (fun sigma => k_spherical_laplace_decay !![(1 : ℝ)] !![(3 : ℝ)]
        (1 / 2) (-1) sigma 0 0)
      atTop (nhds (k_spherical_laplace !![(1 : ℝ)] !![(3 : ℝ)] (1 / 2) (-1) 0 0)) ∧
    ∀ᶠ sigma in atTop,
      |k_spherical_laplace_decay !![(1 : ℝ)] !![(3 : ℝ)] (1 / 2) (-1) sigma 0 0 -
        k_spherical_laplace !![(1 : ℝ)] !![(3 : ℝ)] (1 / 2) (-1) 0 0| < 1 :=
  ⟨(laplace_decay_limit !![(1 : ℝ)] !![(3 : ℝ)] (1 / 2) (-1) 0 0).1,
    (laplace_decay_limit !![(1 : ℝ)] !![(3 : ℝ)] (1 / 2) (-1) 0 0).2 1 one_pos⟩

end NeuralSplines

end
